import Mathlib

/-!
Verification development for the drug_app_api repository: a per-user CRUD
backend for drugs, tags and ingredients.  The data model and operations are
shallowly embedded from `app/core` and `app/drug` (serializers, URL routing
and the behaviour pinned down by the test suite); the view-layer query
filtering and the `core/models.py` helpers, whose source files are not part
of the reviewed tree, are modelled from the specification where noted.
-/

namespace DrugApp

/-- A user account record (core.models user model): normalized email,
password hash, staff/superuser flags. -/
structure User where
  id : Nat
  email : String
  passwordHash : String
  isStaff : Bool
  isSuperuser : Bool
deriving DecidableEq, Repr

/-- A tag record: name plus owning user reference (core.models.Tag). -/
structure Tag where
  id : Nat
  user : Nat
  name : String
deriving DecidableEq, Repr

/-- An ingredient record: name plus owning user reference
(core.models.Ingredient). -/
structure Ingredient where
  id : Nat
  user : Nat
  name : String
deriving DecidableEq, Repr

/-- A drug record (core.models.Drug): title, daily frequency, price,
optional link, optional image path, owner, and many-to-many tag and
ingredient id sets. Price is modelled in fixed-point (cents) as an
integer. -/
structure Drug where
  id : Nat
  user : Nat
  title : String
  daily_frequency : Int
  price : Int
  link : String
  image : Option String
  tags : List Nat
  ingredients : List Nat
deriving DecidableEq, Repr

/-- The relational store backing the API. -/
structure Store where
  users : List User
  tags : List Tag
  ingredients : List Ingredient
  drugs : List Drug
deriving DecidableEq, Repr

/-! ### Generic string helpers

`splitOnChar` mirrors Python's `str.split(sep)` on a character list, and
`lastPart` mirrors indexing the result with `[-1]`. -/

/-- Split a character list at every occurrence of `sep`, like Python's
`str.split(sep)`: always returns at least one (possibly empty) part. -/
def splitOnChar (sep : Char) : List Char → List (List Char)
  | [] => [[]]
  | c :: rest =>
    if c = sep then
      [] :: splitOnChar sep rest
    else
      match splitOnChar sep rest with
      | [] => [[c]]
      | h :: t => (c :: h) :: t

/-- The last element of a list of parts, like Python's `parts[-1]`;
empty input yields the empty part. -/
def lastPart : List (List Char) → List Char
  | [] => []
  | [x] => x
  | _ :: y :: t => lastPart (y :: t)

/-- Decimal digits to a natural number, like Python's `int` on a clean
numeric string. -/
def parseNat (l : List Char) : Nat :=
  l.foldl (fun acc c => acc * 10 + (c.toNat - 48)) 0

/-- Modelled from the spec: the view layer's `_params_to_ints` helper
(drug/views.py is not in the reviewed tree) turns a comma-separated
query-string value such as `"1,2,3"` into the list of identifiers. -/
def params_to_ints (q : String) : List Nat :=
  (splitOnChar ',' q.data).map parseNat

/-! ### User store (core/models.py is not in the reviewed tree) -/

/-- Modelled from the spec: password hashing before persistence
(one-way; the concrete scheme is outside the reviewed tree). -/
def hashPassword (raw : String) : String :=
  "pbkdf2::" ++ raw

/-- Modelled from the spec: email normalization lower-cases the entire
email. -/
def normalize_email (e : String) : String :=
  e.toLower

/-- Modelled from the spec: `create_user(email, password, **extra_fields)`
of the user manager in core/models.py (not in the reviewed tree) fails
with `ValidationError` if the email is empty or absent, normalizes the
email, hashes the password, and appends the new record.  Returns the
resulting store together with the error message, if any. -/
def create_user (s : Store) (email : Option String) (password : String)
    (isStaff isSuperuser : Bool) : Store × Option String :=
  match email with
  | none => (s, some "ValidationError: users must have an email address")
  | some e =>
    if e = "" then
      (s, some "ValidationError: users must have an email address")
    else
      ({ s with users := s.users ++
          [{ id := s.users.length + 1
             email := normalize_email e
             passwordHash := hashPassword password
             isStaff := isStaff
             isSuperuser := isSuperuser }] }, none)

/-! ### Image path helper (core/models.py is not in the reviewed tree) -/

/-- The extension of a filename, taken as everything after the last dot:
Python's `filename.split('.')[-1]`. -/
def fileExt (filename : String) : String :=
  String.mk (lastPart (splitOnChar '.' filename.data))

/-- Modelled from the spec: `drug_image_file_path(instance, filename)` in
core/models.py (not in the reviewed tree) generates
`uploads/drug/<random-token>.<original-extension>`; the random token is
passed explicitly here, the instance is ignored. -/
def drug_image_file_path (inst : Option Nat) (token : String)
    (filename : String) : String :=
  let _ := inst
  "uploads/drug/" ++ token ++ "." ++ fileExt filename

/-! ### Serializer module (drug/serializers.py)

`drug/serializers.py` defines `TagSerializer`, `IngredientSerializer`, a
`DrugSerializer` with fields `('id', 'title')`, then a SECOND
`DrugSerializer` with the full field tuple, then `DrugDetailSerializer`.
We embed Python's sequential module-level class binding: later definitions
of the same name shadow earlier ones. -/

/-- The `(class-name, Meta.fields)` pairs of drug/serializers.py in file
order. -/
def serializerClassDefs : List (String × List String) :=
  [("TagSerializer", ["id", "name"]),
   ("IngredientSerializer", ["id", "name"]),
   ("DrugSerializer", ["id", "title"]),
   ("DrugSerializer",
    ["id", "title", "ingredients", "tags", "daily_frequency",
     "price", "link"]),
   ("DrugDetailSerializer",
    ["id", "title", "ingredients", "tags", "daily_frequency",
     "price", "link"])]

/-- Bind a name in a module environment, replacing any earlier binding of
the same name (Python's module-level assignment semantics). -/
def bindName (env : List (String × List String)) (n : String)
    (fields : List String) : List (String × List String) :=
  if env.any (fun p => p.1 == n) then
    env.map (fun p => if p.1 == n then (n, fields) else p)
  else
    env ++ [(n, fields)]

/-- The module environment after executing drug/serializers.py top to
bottom. -/
def serializersModuleEnv : List (String × List String) :=
  serializerClassDefs.foldl (fun env p => bindName env p.1 p.2) []

/-- Look a serializer class up in the module environment, as the views and
tests do via `from drug.serializers import DrugSerializer`. -/
def serializerFields (n : String) : List String :=
  ((serializersModuleEnv.find? (fun p => p.1 == n)).map Prod.snd).getD []

/-! ### Tag / ingredient id resolution (drug/serializers.py)

The `DrugSerializer` that is actually bound declares
`ingredients = PrimaryKeyRelatedField(many=True, queryset=Ingredient.objects.all())`
and `tags = PrimaryKeyRelatedField(many=True, queryset=Tag.objects.all())`:
an id validates iff a record with that primary key exists in the GLOBAL
store — the queryset is not restricted to the requesting user. -/

/-- Whether a tag with the given primary key exists anywhere in the store
(`Tag.objects.all()`). -/
def tagExists (s : Store) (i : Nat) : Bool :=
  s.tags.any (fun t => t.id == i)

/-- Whether an ingredient with the given primary key exists anywhere in
the store (`Ingredient.objects.all()`). -/
def ingredientExists (s : Store) (i : Nat) : Bool :=
  s.ingredients.any (fun t => t.id == i)

/-- Validate a list of tag ids against the serializer field's queryset. -/
def resolveTagIds (s : Store) (ids : List Nat) : Bool :=
  ids.all (tagExists s)

/-- Validate a list of ingredient ids against the serializer field's
queryset. -/
def resolveIngredientIds (s : Store) (ids : List Nat) : Bool :=
  ids.all (ingredientExists s)

/-! ### Write payloads and create / update semantics -/

/-- A write payload for the Drug endpoints; `none` marks a field absent
from the request body. -/
structure DrugPayload where
  title : Option String := none
  daily_frequency : Option Int := none
  price : Option Int := none
  link : Option String := none
  tags : Option (List Nat) := none
  ingredients : Option (List Nat) := none
deriving DecidableEq, Repr

/-- Create a drug through `DrugSerializer` (POST): the mandatory scalar
fields must be present, tag/ingredient ids are validated against the
global querysets, the authenticated caller becomes the owner, and absent
tag/ingredient lists default to empty. Returns the created record, or
`none` on a validation error. -/
def createDrug (s : Store) (owner : Nat) (p : DrugPayload) (newId : Nat) :
    Option Drug :=
  match p.title, p.daily_frequency, p.price with
  | some t, some f, some pr =>
    if resolveTagIds s (p.tags.getD []) &&
       resolveIngredientIds s (p.ingredients.getD []) then
      some { id := newId, user := owner, title := t, daily_frequency := f,
             price := pr, link := p.link.getD "", image := none,
             tags := p.tags.getD [], ingredients := p.ingredients.getD [] }
    else none
  | _, _, _ => none

/-- Full update through `DrugSerializer` (PUT): the mandatory scalar
fields must be present; `tags`/`ingredients` omitted from the payload are
treated as the empty list, so the existing sets are REPLACED by nothing
(the documented replace semantics exercised by `test_full_update_drug`);
an absent `link` leaves the stored link unchanged. -/
def putUpdate (s : Store) (d : Drug) (p : DrugPayload) : Option Drug :=
  match p.title, p.daily_frequency, p.price with
  | some t, some f, some pr =>
    if resolveTagIds s (p.tags.getD []) &&
       resolveIngredientIds s (p.ingredients.getD []) then
      some { d with title := t, daily_frequency := f, price := pr,
                    link := p.link.getD d.link,
                    tags := p.tags.getD [],
                    ingredients := p.ingredients.getD [] }
    else none
  | _, _, _ => none

/-- Partial update through `DrugSerializer` (PATCH): every field absent
from the payload keeps its stored value, including the tag/ingredient
sets; supplied tag/ingredient ids are validated against the global
querysets. -/
def patchUpdate (s : Store) (d : Drug) (p : DrugPayload) : Option Drug :=
  if resolveTagIds s (p.tags.getD []) &&
     resolveIngredientIds s (p.ingredients.getD []) then
    some { d with title := p.title.getD d.title,
                  daily_frequency := p.daily_frequency.getD d.daily_frequency,
                  price := p.price.getD d.price,
                  link := p.link.getD d.link,
                  tags := p.tags.getD d.tags,
                  ingredients := p.ingredients.getD d.ingredients }
  else none

/-! ### List endpoints (drug/views.py is not in the reviewed tree)

The viewsets' `get_queryset` methods are modelled from the spec:
owner-scoping by filtering on the request user, `-name` ordering for tags
and ingredients, `-id` ordering for drugs, `assigned_only` restriction
with a distinctness guarantee after the join, and comma-separated
`tags`/`ingredients` id filters on the drug list. -/

/-- Name-descending ordering used for tag lists (`ordering = ('-name',)`). -/
def tagNameDesc (a b : Tag) : Prop := b.name ≤ a.name

instance : DecidableRel tagNameDesc := fun a b =>
  inferInstanceAs (Decidable (b.name ≤ a.name))

/-- Name-descending ordering used for ingredient lists. -/
def ingredientNameDesc (a b : Ingredient) : Prop := b.name ≤ a.name

instance : DecidableRel ingredientNameDesc := fun a b =>
  inferInstanceAs (Decidable (b.name ≤ a.name))

/-- Id-descending ordering used for drug lists (`order_by('-id')`). -/
def drugIdDesc (a b : Drug) : Prop := b.id ≤ a.id

instance : DecidableRel drugIdDesc := fun a b =>
  inferInstanceAs (Decidable (b.id ≤ a.id))

/-- Concatenate join rows (one block of rows per left-hand record). -/
def joinRows {α : Type} : List (List α) → List α
  | [] => []
  | h :: t => h ++ joinRows t

/-- The rows of the tag-drug association join restricted to one owner:
one row (carrying the tag) per pair of an owned tag and an owned drug
associated with it. -/
def assignedTagRows (s : Store) (owner : Nat) : List Tag :=
  joinRows ((s.tags.filter (fun t => t.user == owner)).map (fun t =>
    (s.drugs.filter
      (fun d => d.user == owner && d.tags.contains t.id)).map
      (fun _ => t)))

/-- The rows of the ingredient-drug association join restricted to one
owner. -/
def assignedIngredientRows (s : Store) (owner : Nat) : List Ingredient :=
  joinRows ((s.ingredients.filter (fun t => t.user == owner)).map (fun t =>
    (s.drugs.filter
      (fun d => d.user == owner && d.ingredients.contains t.id)).map
      (fun _ => t)))

/-- Modelled from the spec: the tag list queryset.  Base result is the
caller's tags ordered by name descending; with `assigned_only` set it is
joined against the caller's drugs (one row per tag-drug association) and
made distinct afterwards. -/
def list_tags_for (s : Store) (owner : Nat) (assignedOnly : Bool) :
    List Tag :=
  let base :=
    if assignedOnly then (assignedTagRows s owner).dedup
    else s.tags.filter (fun t => t.user == owner)
  List.insertionSort tagNameDesc base

/-- Modelled from the spec: the ingredient list queryset, same shape as
the tag list. -/
def list_ingredients_for (s : Store) (owner : Nat) (assignedOnly : Bool) :
    List Ingredient :=
  let base :=
    if assignedOnly then (assignedIngredientRows s owner).dedup
    else s.ingredients.filter (fun t => t.user == owner)
  List.insertionSort ingredientNameDesc base

/-- Modelled from the spec: the drug list queryset.  Base result is the
caller's drugs; a `tags` query parameter (comma-separated ids) restricts
to drugs associated with at least one of those tags, an `ingredients`
parameter does the same independently; ordering is id descending. -/
def list_drugs_for (s : Store) (owner : Nat)
    (tagsQ ingredientsQ : Option String) : List Drug :=
  let base := s.drugs.filter (fun d => d.user == owner)
  let base :=
    match tagsQ with
    | none => base
    | some q =>
      let ids := params_to_ints q
      base.filter (fun d => d.tags.any (fun t => ids.contains t))
  let base :=
    match ingredientsQ with
    | none => base
    | some q =>
      let ids := params_to_ints q
      base.filter (fun d => d.ingredients.any (fun i => ids.contains i))
  List.insertionSort drugIdDesc base

/-! ### Drug list response serialization -/

/-- Render one field of a drug record to its wire value. -/
def drugFieldValue (d : Drug) : String → String
  | "id" => toString d.id
  | "title" => d.title
  | "ingredients" => toString d.ingredients
  | "tags" => toString d.tags
  | "daily_frequency" => toString d.daily_frequency
  | "price" => toString d.price
  | "link" => d.link
  | _ => ""

/-- Serialize one drug for the list response using whatever
`DrugSerializer` the module environment actually binds. -/
def serializeDrugItem (d : Drug) : List (String × String) :=
  (serializerFields "DrugSerializer").map (fun f => (f, drugFieldValue d f))

/-- The drug list response body: each drug of the queryset serialized
with the bound `DrugSerializer`. -/
def drugListResponse (s : Store) (owner : Nat)
    (tagsQ ingredientsQ : Option String) : List (List (String × String)) :=
  (list_drugs_for s owner tagsQ ingredientsQ).map serializeDrugItem

/-! ### Helper lemmas -/

theorem mem_joinRows {α : Type} (ls : List (List α)) (a : α) :
    a ∈ joinRows ls ↔ ∃ l ∈ ls, a ∈ l := by
  induction ls with
  | nil => simp [joinRows]
  | cons h t ih => simp [joinRows, ih]

theorem splitOnChar_ne_nil (sep : Char) (l : List Char) :
    splitOnChar sep l ≠ [] := by
  cases l with
  | nil => simp [splitOnChar]
  | cons c r =>
    by_cases hc : c = sep
    · simp [splitOnChar, hc]
    · simp only [splitOnChar, if_neg hc]
      cases splitOnChar sep r with
      | nil => simp
      | cons h t => simp

theorem two_le_length_splitOnChar (sep : Char) (l : List Char)
    (h : sep ∈ l) : 2 ≤ (splitOnChar sep l).length := by
  induction l with
  | nil => cases h
  | cons c r ih =>
    by_cases hc : c = sep
    · have h1 : 1 ≤ (splitOnChar sep r).length :=
        List.length_pos.mpr (splitOnChar_ne_nil sep r)
      simp only [splitOnChar, if_pos hc, List.length_cons]
      omega
    · have hr : sep ∈ r := by
        cases h with
        | head => exact absurd rfl hc
        | tail _ h => exact h
      have h2 := ih hr
      simp only [splitOnChar, if_neg hc]
      cases hsp : splitOnChar sep r with
      | nil => exact absurd hsp (splitOnChar_ne_nil sep r)
      | cons h t =>
        rw [hsp] at h2
        simpa using h2

theorem splitOnChar_of_not_mem (sep : Char) (l : List Char)
    (h : sep ∉ l) : splitOnChar sep l = [l] := by
  induction l with
  | nil => rfl
  | cons c r ih =>
    have hc : c ≠ sep := fun e => h (e ▸ List.mem_cons_self c r)
    have hr : sep ∉ r := fun e => h (List.mem_cons_of_mem c e)
    simp [splitOnChar, hc, ih hr]

theorem lastPart_cons_cons (x y : List Char) (t : List (List Char)) :
    lastPart (x :: y :: t) = lastPart (y :: t) := rfl

theorem lastPart_splitOnChar_append (sep : Char) (base E : List Char)
    (hE : sep ∉ E) :
    lastPart (splitOnChar sep (base ++ sep :: E)) = E := by
  induction base with
  | nil =>
    simp only [List.nil_append, splitOnChar, if_pos rfl,
      splitOnChar_of_not_mem sep E hE]
    rfl
  | cons c b ih =>
    have hmem : sep ∈ b ++ sep :: E := List.mem_append_right b (List.mem_cons_self sep _)
    by_cases hc : c = sep
    · simp only [List.cons_append, splitOnChar, if_pos hc]
      cases hsp : splitOnChar sep (b ++ sep :: E) with
      | nil => exact absurd hsp (splitOnChar_ne_nil sep _)
      | cons h t =>
        rw [hsp] at ih
        rw [lastPart_cons_cons]
        exact ih
    · simp only [List.cons_append, splitOnChar, if_neg hc]
      cases hsp : splitOnChar sep (b ++ sep :: E) with
      | nil => exact absurd hsp (splitOnChar_ne_nil sep _)
      | cons h t =>
        have hlen := two_le_length_splitOnChar sep _ hmem
        rw [hsp] at hlen ih
        cases t with
        | nil => simp at hlen
        | cons y t2 =>
          rw [lastPart_cons_cons]
          rw [lastPart_cons_cons] at ih
          exact ih

theorem fileExt_of_extension (base E : List Char) (filename : String)
    (hfn : filename.data = base ++ '.' :: E) (hE : '.' ∉ E) :
    fileExt filename = String.mk E := by
  rw [fileExt, hfn, lastPart_splitOnChar_append '.' base E hE]

theorem mem_insertionSort_iff {α : Type} (r : α → α → Prop) [DecidableRel r]
    (l : List α) (a : α) : a ∈ List.insertionSort r l ↔ a ∈ l :=
  (List.perm_insertionSort r l).mem_iff

theorem mem_join_assigned {α : Type} (recs : List α) (drugs : List Drug)
    (q : α → Drug → Bool) (a : α) :
    a ∈ joinRows (recs.map (fun t => (drugs.filter (q t)).map (fun _ => t))) ↔
      (a ∈ recs ∧ ∃ d ∈ drugs, q a d = true) := by
  rw [mem_joinRows]
  constructor
  · rintro ⟨l, hl, hal⟩
    rcases List.mem_map.mp hl with ⟨t, ht, rfl⟩
    rcases List.mem_map.mp hal with ⟨d, hd, rfl⟩
    rcases List.mem_filter.mp hd with ⟨hds, hq⟩
    exact ⟨ht, d, hds, hq⟩
  · rintro ⟨ha, d, hd, hq⟩
    exact ⟨(drugs.filter (q a)).map (fun _ => a),
      List.mem_map.mpr ⟨a, ha, rfl⟩,
      List.mem_map.mpr ⟨d, List.mem_filter.mpr ⟨hd, hq⟩, rfl⟩⟩

theorem mem_assignedTagRows (s : Store) (owner : Nat) (t : Tag) :
    t ∈ assignedTagRows s owner ↔
      (t ∈ s.tags ∧ t.user = owner ∧
        ∃ d ∈ s.drugs, d.user = owner ∧ t.id ∈ d.tags) := by
  rw [assignedTagRows, mem_join_assigned]
  simp only [List.mem_filter, Bool.and_eq_true, beq_iff_eq]
  constructor
  · rintro ⟨⟨ht, hu⟩, d, hd, hdu, hdt⟩
    exact ⟨ht, hu, d, hd, hdu, by simpa using hdt⟩
  · rintro ⟨ht, hu, d, hd, hdu, hdt⟩
    exact ⟨⟨ht, hu⟩, d, hd, hdu, by simpa using hdt⟩

theorem mem_assignedIngredientRows (s : Store) (owner : Nat)
    (t : Ingredient) :
    t ∈ assignedIngredientRows s owner ↔
      (t ∈ s.ingredients ∧ t.user = owner ∧
        ∃ d ∈ s.drugs, d.user = owner ∧ t.id ∈ d.ingredients) := by
  rw [assignedIngredientRows, mem_join_assigned]
  simp only [List.mem_filter, Bool.and_eq_true, beq_iff_eq]
  constructor
  · rintro ⟨⟨ht, hu⟩, d, hd, hdu, hdt⟩
    exact ⟨ht, hu, d, hd, hdu, by simpa using hdt⟩
  · rintro ⟨ht, hu, d, hd, hdu, hdt⟩
    exact ⟨⟨ht, hu⟩, d, hd, hdu, by simpa using hdt⟩

theorem mem_list_tags_for (s : Store) (owner : Nat) (b : Bool) (t : Tag) :
    t ∈ list_tags_for s owner b ↔
      (t ∈ s.tags ∧ t.user = owner ∧
        (b = true → ∃ d ∈ s.drugs, d.user = owner ∧ t.id ∈ d.tags)) := by
  cases b with
  | false =>
    simp [list_tags_for, mem_insertionSort_iff, List.mem_filter, and_assoc]
  | true =>
    have heq : list_tags_for s owner true =
        List.insertionSort tagNameDesc ((assignedTagRows s owner).dedup) := rfl
    rw [heq, mem_insertionSort_iff, List.mem_dedup, mem_assignedTagRows]
    tauto

theorem mem_list_ingredients_for (s : Store) (owner : Nat) (b : Bool)
    (t : Ingredient) :
    t ∈ list_ingredients_for s owner b ↔
      (t ∈ s.ingredients ∧ t.user = owner ∧
        (b = true → ∃ d ∈ s.drugs, d.user = owner ∧ t.id ∈ d.ingredients)) := by
  cases b with
  | false =>
    simp [list_ingredients_for, mem_insertionSort_iff, List.mem_filter,
      and_assoc]
  | true =>
    have heq : list_ingredients_for s owner true =
        List.insertionSort ingredientNameDesc
          ((assignedIngredientRows s owner).dedup) := rfl
    rw [heq, mem_insertionSort_iff, List.mem_dedup, mem_assignedIngredientRows]
    tauto

theorem mem_list_drugs_for (s : Store) (owner : Nat)
    (tq iq : Option String) (d : Drug) :
    d ∈ list_drugs_for s owner tq iq ↔
      (d ∈ s.drugs ∧ d.user = owner ∧
        (∀ q, tq = some q → ∃ x ∈ d.tags, x ∈ params_to_ints q) ∧
        (∀ q, iq = some q → ∃ x ∈ d.ingredients, x ∈ params_to_ints q)) := by
  cases tq <;> cases iq <;>
    simp [list_drugs_for, mem_insertionSort_iff, List.mem_filter,
      List.any_eq_true] <;>
    tauto

theorem count_list_tags_assigned (s : Store) (owner : Nat) (t : Tag)
    (h : t ∈ list_tags_for s owner true) :
    (list_tags_for s owner true).count t = 1 := by
  have heq : list_tags_for s owner true =
      List.insertionSort tagNameDesc ((assignedTagRows s owner).dedup) := rfl
  have hmem : t ∈ assignedTagRows s owner := by
    rw [heq, mem_insertionSort_iff, List.mem_dedup] at h
    exact h
  rw [heq, (List.perm_insertionSort tagNameDesc _).count_eq t,
    List.count_dedup, if_pos hmem]

theorem count_list_ingredients_assigned (s : Store) (owner : Nat)
    (t : Ingredient) (h : t ∈ list_ingredients_for s owner true) :
    (list_ingredients_for s owner true).count t = 1 := by
  have heq : list_ingredients_for s owner true =
      List.insertionSort ingredientNameDesc
        ((assignedIngredientRows s owner).dedup) := rfl
  have hmem : t ∈ assignedIngredientRows s owner := by
    rw [heq, mem_insertionSort_iff, List.mem_dedup] at h
    exact h
  rw [heq, (List.perm_insertionSort ingredientNameDesc _).count_eq t,
    List.count_dedup, if_pos hmem]

/-! ### A concrete two-user store used to instantiate the theorems -/

/-- A concrete store with two users, tags, ingredients, and drugs on
both sides, mirroring the fixtures of the API tests. -/
def exStore : Store :=
  { users :=
      [{ id := 1, email := "test@dummy.com",
         passwordHash := hashPassword "testpass",
         isStaff := false, isSuperuser := false },
       { id := 2, email := "other@dummy.com",
         passwordHash := hashPassword "password123",
         isStaff := false, isSuperuser := false }],
    tags :=
      [{ id := 10, user := 1, name := "morning" },
       { id := 11, user := 1, name := "evening" },
       { id := 12, user := 1, name := "unused" },
       { id := 20, user := 2, name := "night" }],
    ingredients :=
      [{ id := 30, user := 1, name := "zinc" },
       { id := 31, user := 1, name := "iron" },
       { id := 32, user := 1, name := "spare" },
       { id := 40, user := 2, name := "salt" }],
    drugs :=
      [{ id := 100, user := 1, title := "aspirin", daily_frequency := 2,
         price := 500, link := "", image := none,
         tags := [10], ingredients := [30] },
       { id := 101, user := 1, title := "ibuprofen", daily_frequency := 1,
         price := 300, link := "", image := none,
         tags := [11, 10], ingredients := [31, 30] },
       { id := 102, user := 1, title := "paracetamol", daily_frequency := 3,
         price := 200, link := "", image := none,
         tags := [], ingredients := [] },
       { id := 200, user := 2, title := "codeine", daily_frequency := 1,
         price := 900, link := "", image := none,
         tags := [20], ingredients := [40] }] }

/-! ### Claim theorems -/

/-- C1: for every authenticated user A and every state of the stores,
listing Drugs (and likewise Tags and Ingredients) as A — with any query
parameters — returns only records owned by A; in particular no record
owned by a different user B appears in any response. -/
theorem listing_limited_to_owner (s : Store) (A B : Nat) (hAB : B ≠ A) :
    (∀ tq iq : Option String, ∀ d ∈ list_drugs_for s A tq iq,
        d.user = A ∧ d.user ≠ B) ∧
    (∀ b : Bool, ∀ t ∈ list_tags_for s A b, t.user = A ∧ t.user ≠ B) ∧
    (∀ b : Bool, ∀ i ∈ list_ingredients_for s A b,
        i.user = A ∧ i.user ≠ B) := by
  refine ⟨fun tq iq d hd => ?_, fun b t ht => ?_, fun b i hi => ?_⟩
  · have h := (mem_list_drugs_for s A tq iq d).mp hd
    exact ⟨h.2.1, h.2.1 ▸ fun e => hAB e.symm⟩
  · have h := (mem_list_tags_for s A b t).mp ht
    exact ⟨h.2.1, h.2.1 ▸ fun e => hAB e.symm⟩
  · have h := (mem_list_ingredients_for s A b i).mp hi
    exact ⟨h.2.1, h.2.1 ▸ fun e => hAB e.symm⟩

/-- Witness for C1: instantiated on the concrete two-user store with
A = 1 and B = 2. -/
theorem listing_limited_to_owner_witness :
    (2 ≠ 1) ∧
    ((∀ tq iq : Option String, ∀ d ∈ list_drugs_for exStore 1 tq iq,
        d.user = 1 ∧ d.user ≠ 2) ∧
     (∀ b : Bool, ∀ t ∈ list_tags_for exStore 1 b, t.user = 1 ∧ t.user ≠ 2) ∧
     (∀ b : Bool, ∀ i ∈ list_ingredients_for exStore 1 b,
        i.user = 1 ∧ i.user ≠ 2)) :=
  ⟨by decide, listing_limited_to_owner exStore 1 2 (by decide)⟩

/-- C3: a full (PUT) update whose payload omits `tags` leaves the drug
with zero associated tags afterwards, whatever tags it had before, and
the scalar fields take the payload's values. -/
theorem full_update_without_tags_clears (s : Store) (d : Drug)
    (p : DrugPayload) (ti : String) (f pr : Int)
    (hti : p.title = some ti) (hf : p.daily_frequency = some f)
    (hpr : p.price = some pr) (htags : p.tags = none)
    (hing : resolveIngredientIds s (p.ingredients.getD []) = true) :
    putUpdate s d p =
      some { d with title := ti, daily_frequency := f, price := pr,
                    link := p.link.getD d.link, tags := [],
                    ingredients := p.ingredients.getD [] } := by
  simp [putUpdate, hti, hf, hpr, htags, resolveTagIds, hing]

/-- Witness for C3: the drug with id 100 holds tag 10 before the update
and zero tags after a PUT without a `tags` field. -/
theorem full_update_without_tags_clears_witness :
    putUpdate exStore
      { id := 100, user := 1, title := "aspirin", daily_frequency := 2,
        price := 500, link := "", image := none,
        tags := [10], ingredients := [30] }
      { title := some "arbon drug", daily_frequency := some 25,
        price := some 500 } =
      some { id := 100, user := 1, title := "arbon drug",
             daily_frequency := 25, price := 500, link := "", image := none,
             tags := [], ingredients := [] } :=
  full_update_without_tags_clears exStore
    { id := 100, user := 1, title := "aspirin", daily_frequency := 2,
      price := 500, link := "", image := none,
      tags := [10], ingredients := [30] }
    { title := some "arbon drug", daily_frequency := some 25,
      price := some 500 }
    "arbon drug" 25 500 rfl rfl rfl rfl (by decide)

/-- C4: creating a user with an absent or empty email fails with
ValidationError for every password and extra-field combination, and the
user store is left unchanged (no record is created). -/
theorem create_user_requires_email (s : Store) (email : Option String)
    (password : String) (st su : Bool)
    (h : email = none ∨ email = some "") :
    (create_user s email password st su).2.isSome = true ∧
    (create_user s email password st su).1 = s := by
  rcases h with h | h <;> subst h <;> simp [create_user]

/-- Witness for C4: creating a user with an absent email on the concrete
store fails and changes nothing. -/
theorem create_user_requires_email_witness :
    (none = (none : Option String) ∨ (none : Option String) = some "") ∧
    ((create_user exStore none "asdf1234" false false).2.isSome = true ∧
     (create_user exStore none "asdf1234" false false).1 = exStore) :=
  ⟨Or.inl rfl, create_user_requires_email exStore none "asdf1234" false false
    (Or.inl rfl)⟩

/-- C6: a partial (PATCH) update with payload `{title, tags := [X]}`
changes the title, replaces the tag set with exactly `[X]`, and leaves
daily frequency, price, link, image and the ingredient set unchanged,
for every prior state of the drug. -/
theorem partial_update_frame (s : Store) (d : Drug) (ti : String) (X : Nat)
    (hX : tagExists s X = true) :
    patchUpdate s d { title := some ti, tags := some [X] } =
      some { d with title := ti, tags := [X] } := by
  simp [patchUpdate, resolveTagIds, resolveIngredientIds, hX]

/-- Witness for C6: patching drug 100 (tag set `[10]`) with a new title
and tag 11 yields exactly tag 11 with all other fields kept. -/
theorem partial_update_frame_witness :
    (tagExists exStore 11 = true) ∧
    patchUpdate exStore
      { id := 100, user := 1, title := "aspirin", daily_frequency := 2,
        price := 500, link := "", image := none,
        tags := [10], ingredients := [30] }
      { title := some "Chicken drug", tags := some [11] } =
      some { id := 100, user := 1, title := "Chicken drug",
             daily_frequency := 2, price := 500, link := "", image := none,
             tags := [11], ingredients := [30] } :=
  ⟨by decide, partial_update_frame exStore
    { id := 100, user := 1, title := "aspirin", daily_frequency := 2,
      price := 500, link := "", image := none,
      tags := [10], ingredients := [30] }
    "Chicken drug" 11 (by decide)⟩

/-- C2 counterexample: the bound `DrugSerializer` resolves against the
global querysets, so user 1 creating a drug that names user 2's tag 20 is
ACCEPTED, and the created drug (owned by user 1) carries a tag owned by
user 2; a PATCH naming the foreign tag is accepted as well. -/
theorem cross_user_tag_accepted :
    createDrug exStore 1
      { title := some "night pill", daily_frequency := some 1,
        price := some 100, tags := some [20] } 300 =
      some { id := 300, user := 1, title := "night pill",
             daily_frequency := 1, price := 100, link := "", image := none,
             tags := [20], ingredients := [] } ∧
    patchUpdate exStore
      { id := 100, user := 1, title := "aspirin", daily_frequency := 2,
        price := 500, link := "", image := none,
        tags := [10], ingredients := [30] }
      { tags := some [20] } =
      some { id := 100, user := 1, title := "aspirin", daily_frequency := 2,
             price := 500, link := "", image := none,
             tags := [20], ingredients := [30] } ∧
    (∀ t ∈ exStore.tags, t.id = 20 → t.user = 2) ∧ (2 : Nat) ≠ 1 := by
  decide

/-- C2 (amended): payload tag and ingredient identifiers are resolved
against the GLOBAL Tag/Ingredient stores, not caller-scoped ones: a
create succeeds iff the mandatory scalars are present and every
referenced identifier exists in the respective store regardless of its
owner, and the created drug then carries exactly the payload's
identifier lists — so a drug may end up associated with tags or
ingredients owned by a different user. -/
theorem create_resolves_ids_globally (s : Store) (owner : Nat)
    (p : DrugPayload) (newId : Nat) :
    ((createDrug s owner p newId).isSome = true ↔
      (p.title.isSome = true ∧ p.daily_frequency.isSome = true ∧
       p.price.isSome = true ∧
       (∀ i ∈ p.tags.getD [], ∃ t ∈ s.tags, t.id = i) ∧
       (∀ i ∈ p.ingredients.getD [], ∃ t ∈ s.ingredients, t.id = i))) ∧
    (∀ d, createDrug s owner p newId = some d →
      d.user = owner ∧ d.tags = p.tags.getD [] ∧
      d.ingredients = p.ingredients.getD []) := by
  rcases p with ⟨t, f, pr, l, tg, ing⟩
  cases t <;> cases f <;> cases pr <;>
    simp only [createDrug, Option.isSome_none, Option.isSome_some] <;>
    simp [resolveTagIds, resolveIngredientIds, tagExists, ingredientExists,
      List.all_eq_true, List.any_eq_true]

/-- Witness for C2 (amended): on the concrete store, creating with tag
ids `[10, 20]` (one own, one foreign, both existing) is accepted with
exactly those associations. -/
theorem create_resolves_ids_globally_witness :
    ((createDrug exStore 1
      { title := some "mix", daily_frequency := some 1, price := some 50,
        tags := some [10, 20] } 301).isSome = true ↔
      ((some "mix" : Option String).isSome = true ∧
       (some (1 : Int)).isSome = true ∧ (some (50 : Int)).isSome = true ∧
       (∀ i ∈ (some [10, 20] : Option (List Nat)).getD [],
          ∃ t ∈ exStore.tags, t.id = i) ∧
       (∀ i ∈ (none : Option (List Nat)).getD [],
          ∃ t ∈ exStore.ingredients, t.id = i))) ∧
    (∀ d, createDrug exStore 1
      { title := some "mix", daily_frequency := some 1, price := some 50,
        tags := some [10, 20] } 301 = some d →
      d.user = 1 ∧ d.tags = (some [10, 20] : Option (List Nat)).getD [] ∧
      d.ingredients = (none : Option (List Nat)).getD []) :=
  create_resolves_ids_globally exStore 1
    { title := some "mix", daily_frequency := some 1, price := some 50,
      tags := some [10, 20] } 301

/-- C5 counterexample: the drug list response on the concrete store is
non-empty and its first item does NOT carry exactly the summary fields
`id` and `title` — the summary `DrugSerializer` definition is shadowed by
the later full-field definition of the same name. -/
theorem drug_list_summary_cex :
    (drugListResponse exStore 1 none none).length = 3 ∧
    ((drugListResponse exStore 1 none none).headD []).map Prod.fst ≠
      ["id", "title"] := by
  decide

/-- C5 (amended): every drug list response item carries exactly the full
field set `id, title, ingredients, tags, daily_frequency, price, link`
(the second `DrugSerializer` definition shadows the summary one, so list
views use the full representation). -/
theorem drug_list_uses_full_representation (s : Store) (owner : Nat)
    (tq iq : Option String) (item : List (String × String))
    (h : item ∈ drugListResponse s owner tq iq) :
    item.map Prod.fst =
      ["id", "title", "ingredients", "tags", "daily_frequency", "price",
       "link"] := by
  rcases List.mem_map.mp h with ⟨d, hd, rfl⟩
  rfl

/-- Witness for C5 (amended): the serialization of drug 100 is an item of
the concrete list response and carries the full field set. -/
theorem drug_list_uses_full_representation_witness :
    (serializeDrugItem
        { id := 100, user := 1, title := "aspirin", daily_frequency := 2,
          price := 500, link := "", image := none,
          tags := [10], ingredients := [30] } ∈
      drugListResponse exStore 1 none none) ∧
    (serializeDrugItem
        { id := 100, user := 1, title := "aspirin", daily_frequency := 2,
          price := 500, link := "", image := none,
          tags := [10], ingredients := [30] }).map Prod.fst =
      ["id", "title", "ingredients", "tags", "daily_frequency", "price",
       "link"] :=
  ⟨by decide, drug_list_uses_full_representation exStore 1 none none _
    (by decide)⟩

/-- C7: filtering the drug list with `tags=T1,T2` returns exactly the
owner's drugs associated with T1 or with T2 (union) and excludes every
drug associated with neither; the `ingredients` filter behaves the same
way independently. -/
theorem drug_filter_union (s : Store) (owner : Nat) (qt qi : String)
    (T1 T2 I1 I2 : Nat)
    (hqt : params_to_ints qt = [T1, T2])
    (hqi : params_to_ints qi = [I1, I2]) :
    (∀ d, d ∈ list_drugs_for s owner (some qt) none ↔
      (d ∈ s.drugs ∧ d.user = owner ∧ (T1 ∈ d.tags ∨ T2 ∈ d.tags))) ∧
    (∀ d, d ∈ list_drugs_for s owner none (some qi) ↔
      (d ∈ s.drugs ∧ d.user = owner ∧
        (I1 ∈ d.ingredients ∨ I2 ∈ d.ingredients))) := by
  constructor <;> intro d <;> rw [mem_list_drugs_for] <;>
    simp [hqt, hqi] <;> aesop

/-- Witness for C7: on the concrete store, `tags=10,11` returns exactly
the owner's drugs carrying tag 10 or 11 and `ingredients=30,31` exactly
those carrying ingredient 30 or 31. -/
theorem drug_filter_union_witness :
    (params_to_ints "10,11" = [10, 11] ∧
     params_to_ints "30,31" = [30, 31]) ∧
    ((∀ d, d ∈ list_drugs_for exStore 1 (some "10,11") none ↔
      (d ∈ exStore.drugs ∧ d.user = 1 ∧ (10 ∈ d.tags ∨ 11 ∈ d.tags))) ∧
     (∀ d, d ∈ list_drugs_for exStore 1 none (some "30,31") ↔
      (d ∈ exStore.drugs ∧ d.user = 1 ∧
        (30 ∈ d.ingredients ∨ 31 ∈ d.ingredients)))) :=
  ⟨⟨by decide, by decide⟩,
   drug_filter_union exStore 1 "10,11" "30,31" 10 11 30 31
     (by decide) (by decide)⟩

/-- C8: with `assigned_only` set, the tag (resp. ingredient) list returns
exactly the caller's records associated with at least one of the caller's
drugs, and each qualifying record appears exactly once even when it is
associated with several drugs. -/
theorem assigned_only_exact_and_unique (s : Store) (owner : Nat) :
    (∀ t, t ∈ list_tags_for s owner true ↔
      (t ∈ s.tags ∧ t.user = owner ∧
        ∃ d ∈ s.drugs, d.user = owner ∧ t.id ∈ d.tags)) ∧
    (∀ t ∈ list_tags_for s owner true,
        (list_tags_for s owner true).count t = 1) ∧
    (∀ i, i ∈ list_ingredients_for s owner true ↔
      (i ∈ s.ingredients ∧ i.user = owner ∧
        ∃ d ∈ s.drugs, d.user = owner ∧ i.id ∈ d.ingredients)) ∧
    (∀ i ∈ list_ingredients_for s owner true,
        (list_ingredients_for s owner true).count i = 1) := by
  refine ⟨fun t => ?_, fun t ht => count_list_tags_assigned s owner t ht,
    fun i => ?_, fun i hi => count_list_ingredients_assigned s owner i hi⟩
  · rw [mem_list_tags_for]
    tauto
  · rw [mem_list_ingredients_for]
    tauto

/-- Witness for C8: instantiated on the concrete store, where tag 10 and
ingredient 30 are each associated with two drugs of user 1. -/
theorem assigned_only_exact_and_unique_witness :
    (∀ t, t ∈ list_tags_for exStore 1 true ↔
      (t ∈ exStore.tags ∧ t.user = 1 ∧
        ∃ d ∈ exStore.drugs, d.user = 1 ∧ t.id ∈ d.tags)) ∧
    (∀ t ∈ list_tags_for exStore 1 true,
        (list_tags_for exStore 1 true).count t = 1) ∧
    (∀ i, i ∈ list_ingredients_for exStore 1 true ↔
      (i ∈ exStore.ingredients ∧ i.user = 1 ∧
        ∃ d ∈ exStore.drugs, d.user = 1 ∧ i.id ∈ d.ingredients)) ∧
    (∀ i ∈ list_ingredients_for exStore 1 true,
        (list_ingredients_for exStore 1 true).count i = 1) :=
  assigned_only_exact_and_unique exStore 1

/-- C9: for every original filename of the form `<base>.<ext>` (with a
dot-free extension) and every generated random token, the image path is
exactly `uploads/drug/<token>.<ext>`, the extension taken verbatim from
the filename's suffix. -/
theorem image_path_format (inst : Option Nat) (token : String)
    (filename : String) (base ext : List Char)
    (hfn : filename.data = base ++ '.' :: ext) (hext : '.' ∉ ext) :
    drug_image_file_path inst token filename =
      "uploads/drug/" ++ token ++ "." ++ String.mk ext := by
  simp only [drug_image_file_path]
  rw [fileExt_of_extension base ext filename hfn hext]

/-- Witness for C9: with the token generator returning `test-uuid` and
filename `photo.jpg` the result is exactly `uploads/drug/test-uuid.jpg`. -/
theorem image_path_format_witness :
    ("photo.jpg".data = "photo".data ++ '.' :: "jpg".data ∧
      '.' ∉ "jpg".data) ∧
    drug_image_file_path none "test-uuid" "photo.jpg" =
      "uploads/drug/test-uuid.jpg" := by
  refine ⟨⟨by decide, by decide⟩, ?_⟩
  have h := image_path_format none "test-uuid" "photo.jpg" "photo".data
    "jpg".data (by decide) (by decide)
  rw [h]
  decide

/-- C10: the generated image path depends neither on the model instance
nor on the base name of the original filename: any two filenames sharing
the same final extension yield the identical path under the same token,
for any instances. -/
theorem image_path_content_independent (inst1 inst2 : Option Nat)
    (token : String) (fn1 fn2 : String) (b1 b2 ext : List Char)
    (h1 : fn1.data = b1 ++ '.' :: ext) (h2 : fn2.data = b2 ++ '.' :: ext)
    (hext : '.' ∉ ext) :
    drug_image_file_path inst1 token fn1 =
      drug_image_file_path inst2 token fn2 := by
  simp only [drug_image_file_path]
  rw [fileExt_of_extension b1 ext fn1 h1 hext,
    fileExt_of_extension b2 ext fn2 h2 hext]

/-- Witness for C10: `photo.jpg` with no instance and `archive.old.jpg`
with instance 5 map to the same path under the same token. -/
theorem image_path_content_independent_witness :
    ("photo.jpg".data = "photo".data ++ '.' :: "jpg".data ∧
     "archive.old.jpg".data = "archive.old".data ++ '.' :: "jpg".data ∧
     '.' ∉ "jpg".data) ∧
    drug_image_file_path none "test-uuid" "photo.jpg" =
      drug_image_file_path (some 5) "test-uuid" "archive.old.jpg" :=
  ⟨⟨by decide, by decide, by decide⟩,
   image_path_content_independent none (some 5) "test-uuid" "photo.jpg"
     "archive.old.jpg" "photo".data "archive.old".data "jpg".data
     (by decide) (by decide) (by decide)⟩

end DrugApp
